import Mathlib

/-!
Shallow embedding of the merge pipeline of `src/lib/pdfMerger.ts` (the version
with MergeOptions / table-of-contents support, lines 489-1470 of the file).

Modelling conventions:
* Machine reals used for page coordinates are modelled as exact rationals.
* External collaborators are modelled as data carried by the input item or as
  function parameters:
  - `FileItem.pdfData` is the outcome of `file.arrayBuffer()` followed by
    `PDFDocument.load(..., ignoreEncryption: true)` (a read or parse failure is
    an `Except.error` with the thrown message);
  - `FileItem.bitmap` is the outcome of reading the file and
    `createImageBitmap` (pixel width and height);
  - `FileItem.textData` / `FileItem.wordText` are the outcomes of
    `FileReader.readAsText` and of `mammoth.extractRawText`;
  - `hw : String → Nat → ℚ` is pdf-lib's `widthOfTextAtSize` for the embedded
    Helvetica font (text, size ↦ measured width); Courier is monospaced with
    every glyph 600/1000 em wide, so its width function is hard-coded exactly;
  - `sv : FinalDoc → Bool → List Nat` is pdf-lib's `save` serializer
    (document, useObjectStreams ↦ bytes).
* `console.log` calls are ignored; `onProgress` callbacks are collected into
  the returned event list in emission order.
-/

namespace PdfMerger

instance {ε α : Type} [DecidableEq ε] [DecidableEq α] : DecidableEq (Except ε α) := fun x y =>
  match x, y with
  | .error e, .error f =>
    if h : e = f then isTrue (congrArg Except.error h) else isFalse fun hh => h (by cases hh; rfl)
  | .error _, .ok _ => isFalse fun hh => Except.noConfusion hh
  | .ok _, .error _ => isFalse fun hh => Except.noConfusion hh
  | .ok a, .ok b =>
    if h : a = b then isTrue (congrArg Except.ok h) else isFalse fun hh => h (by cases hh; rfl)

/-- JavaScript `String.prototype.split` with a single-character separator
(every separator in the source — `'\n'`, `' '`, `'.'` — is one character).
Implemented structurally over the character list. -/
def splitChGo (sep : Char) : List Char → List (List Char)
  | [] => [[]]
  | c :: cs =>
    match splitChGo sep cs with
    | [] => [[]]
    | g :: gs => if c = sep then [] :: g :: gs else (c :: g) :: gs

def splitCh (sep : Char) (s : String) : List String :=
  (splitChGo sep s.data).map fun l => String.mk l

def newlineCh : Char := Char.ofNat 10
def spaceCh : Char := Char.ofNat 32
def dotCh : Char := Char.ofNat 46
def aChar : Char := Char.ofNat 97

/-! ### Data model -/

inductive Phase where
  | preparing
  | processing
  | compressing
  | finalizing
  | complete
deriving DecidableEq, Repr

/-- `MergeProgress` from the source: one progress callback payload. -/
structure MergeProgress where
  current : Nat
  total : Nat
  phase : Phase
  message : String
  currentFile : Option String := none
deriving DecidableEq, Repr

/-- A single drawing operation on a page (`drawText`, `drawLine`, `drawImage`).
Colors, fonts and opacity are pure styling and are not modelled. -/
inductive DrawOp where
  | text (s : String) (x y : ℚ) (size : Nat)
  | line (x1 y1 x2 y2 : ℚ)
  | image (w h : ℚ)
deriving DecidableEq, Repr

/-- A finished page: its media box and the operations drawn on it. -/
structure Page where
  width : ℚ
  height : ℚ
  ops : List DrawOp
deriving DecidableEq, Repr

inductive FileType where
  | pdf
  | image
  | text
  | word
  | unsupported
deriving DecidableEq, Repr

/-- `FileItem` from the source, with the outcomes of the external I/O calls the
adapters make carried as fields (see the module docstring). -/
structure FileItem where
  id : String := ""
  name : String
  size : Nat := 0
  ftype : FileType
  mime : String := ""
  selected : Bool := true
  pdfData : Except String (List Page) := .error "load failed"
  bitmap : Except String (Nat × Nat) := .error "decode failed"
  textData : Except String String := .error "Failed to read text file"
  wordText : Except String String := .error "Failed to read Word document"

inductive OutputFormat where
  | pdf
  | pdfCompressed
  | pdfHighQuality
deriving DecidableEq, Repr

structure QualitySettings where
  imageQuality : ℚ
  maxImageDimension : Nat
  useObjectStreams : Bool
  scaleImages : Bool
deriving DecidableEq, Repr

def QUALITY_PRESETS : OutputFormat → QualitySettings
  | .pdfCompressed => { imageQuality := 1/2, maxImageDimension := 1200, useObjectStreams := true, scaleImages := true }
  | .pdf => { imageQuality := 4/5, maxImageDimension := 2400, useObjectStreams := true, scaleImages := true }
  | .pdfHighQuality => { imageQuality := 19/20, maxImageDimension := 4800, useObjectStreams := false, scaleImages := false }

inductive PageNumberPosition where
  | bottomCenter | bottomRight | bottomLeft | topCenter | topRight | topLeft
deriving DecidableEq, Repr

inductive PageNumberFormat where
  | pageXofY | xSlashY | xOnly | dashXdash
deriving DecidableEq, Repr

structure MergeOptions where
  addPageNumbers : Bool
  pageNumberPosition : PageNumberPosition
  pageNumberFormat : PageNumberFormat
  addHeader : Bool
  headerText : String
  addFooter : Bool
  footerText : String
  addWatermark : Bool
  watermarkText : String
  watermarkOpacity : ℚ
  addTableOfContents : Bool
  pdfTitle : String
  pdfAuthor : String
  pdfSubject : String
deriving DecidableEq, Repr

def defaultMergeOptions : MergeOptions :=
  { addPageNumbers := false
    pageNumberPosition := .bottomCenter
    pageNumberFormat := .pageXofY
    addHeader := false
    headerText := ""
    addFooter := false
    footerText := ""
    addWatermark := false
    watermarkText := "CONFIDENTIAL"
    watermarkOpacity := 3/20
    addTableOfContents := false
    pdfTitle := ""
    pdfAuthor := ""
    pdfSubject := "" }

/-- `DocumentInfo` from the source: per-input bookkeeping for the TOC. -/
structure DocumentInfo where
  name : String
  startPage : Nat
  pageCount : Nat
deriving DecidableEq, Repr

/-! ### getPdfPageCount -/

/-- `getPdfPageCount`: the whole body is wrapped in try/catch, the catch
returns 0, so the function is total. -/
def getPdfPageCount (f : FileItem) : Nat :=
  match f.pdfData with
  | .ok pdf => pdf.length
  | .error _ => 0

/-! ### Image adapter -/

/-- `Math.round (a / b)` for naturals: `⌊a / b + 1 / 2⌋ = (2 * a + b) / (2 * b)`. -/
def roundDiv (a b : Nat) : Nat := (2 * a + b) / (2 * b)

/-- The dimension computation of `compressImage`: downscale when enabled and
one dimension exceeds `maxImageDimension`, with
`scale = maxImageDimension / max(width, height)` and `Math.round` on each
scaled dimension. -/
def compressDims (w h : Nat) (s : QualitySettings) : Nat × Nat :=
  if s.scaleImages ∧ (w > s.maxImageDimension ∨ h > s.maxImageDimension) then
    (roundDiv (w * s.maxImageDimension) (max w h), roundDiv (h * s.maxImageDimension) (max w h))
  else
    (w, h)

/-- `String.prototype.includes` for the mime test. -/
def strIncludes (s sub : String) : Bool :=
  (List.range (s.data.length + 1)).any fun i => sub.data.isPrefixOf (s.data.drop i)

/-- `file.name.split('.').pop()?.toLowerCase()` (no leading dot). -/
def extOf (name : String) : String :=
  ((splitCh dotCh name).getLastD name).toLower

/-- The condition of the direct-PNG-embed branch of `imageToPdfBytes`. -/
def pngDirect (item : FileItem) (s : QualitySettings) : Bool :=
  (strIncludes item.mime.toLower "png" || extOf item.name == "png")
    && !s.scaleImages && decide (s.imageQuality > 9/10)

/-- `imageToPdfBytes`: one page sized to the final pixel dimensions with the
image drawn edge to edge.  The PNG branch embeds at native size; the JPEG
branch re-encodes at the dimensions chosen by `compressImage`. -/
def imageToPdfPages (item : FileItem) (s : QualitySettings) : Except String (List Page) :=
  match item.bitmap with
  | .error e => .error e
  | .ok (w, h) =>
    let dims := if pngDirect item s then (w, h) else compressDims w h s
    .ok [⟨dims.1, dims.2, [DrawOp.image dims.1 dims.2]⟩]

/-! ### Text adapter -/

/-- `widthOfTextAtSize` at the text adapter's fixed `fontSize = 10` for the
embedded Courier font: every Courier glyph (space included) is 600/1000 em, so
the measured width is exactly `0.6 * 10 * length = 6 * length`, an integer. -/
def courierWidth10 (s : String) : Nat := 6 * s.data.length

/-- Usable text width: `pageWidth - margin * 2 = 612 - 100`. -/
def textMaxWidth : Nat := 612 - 50 * 2

/-- `maxLinesPerPage = Math.floor((pageHeight - margin * 2) / lineHeight)` with
`lineHeight = 10 * 1.4 = 14`. -/
def maxLinesPerPage : Nat := (792 - 50 * 2) / 14

/-- The inner word loop of the text adapter's word wrap. -/
def wrapLoop : List String → String → List String
  | [], cur => if cur = "" then [] else [cur]
  | w :: ws, cur =>
    let testLine := if cur = "" then w else cur ++ " " ++ w
    if courierWidth10 testLine > textMaxWidth ∧ cur ≠ "" then
      cur :: wrapLoop ws w
    else
      wrapLoop ws testLine

/-- Word wrap of one logical line (an empty line is kept as an empty wrapped
line). -/
def wrapLine (line : String) : List String :=
  if line.length = 0 then [""] else wrapLoop (splitCh spaceCh line) ""

/-- `wrappedLines`: split on newlines, then word-wrap each logical line. -/
def wrappedLines (text : String) : List String :=
  ((splitCh newlineCh text).map wrapLine).flatten

/-- The page-creation `while` loop of `textToPdfBytes`.  The fuel is the number
of remaining lines; each iteration consumes at least one line, so fuel equal to
the initial length is never exhausted. -/
def textPagesGo (name : String) : Nat → List String → Bool → List Page
  | 0, _, _ => []
  | _, [], _ => []
  | fuel + 1, l :: ls, first =>
    let rem := l :: ls
    let k := min (maxLinesPerPage - (if first then 2 else 0)) rem.length
    let y0 : Nat := if first then 792 - 50 - 14 * 2 else 792 - 50
    let headerOps : List DrawOp :=
      if first then [DrawOp.text ("File: " ++ name) 50 ((792 - 50 : Nat) : ℚ) 12] else []
    let bodyOps : List DrawOp :=
      (rem.take k).enum.map fun p => DrawOp.text p.2 50 ((y0 - 14 * p.1 : Nat) : ℚ) 10
    ⟨612, 792, headerOps ++ bodyOps⟩ :: textPagesGo name fuel (rem.drop k) false

def textPages (name : String) (wrapped : List String) : List Page :=
  textPagesGo name wrapped.length wrapped true

/-- `textToPdfBytes` up to serialization: the produced page list. -/
def textToPdfPages (name text : String) : List Page :=
  let pages := textPages name (wrappedLines text)
  if pages.length = 0 then
    [⟨612, 792, [DrawOp.text ("File: " ++ name ++ " (empty)") 50 ((792 - 50 : Nat) : ℚ) 12]⟩]
  else
    pages

/-! ### Word adapter -/

/-- The word adapter's word wrap (Helvetica at size 11, whitespace-only
paragraphs kept as empty wrapped lines). -/
def wordWrapLoop (hw : String → Nat → ℚ) : List String → String → List String
  | [], cur => if cur = "" then [] else [cur]
  | w :: ws, cur =>
    let testLine := if cur = "" then w else cur ++ " " ++ w
    if hw testLine 11 > (textMaxWidth : ℚ) ∧ cur ≠ "" then
      cur :: wordWrapLoop hw ws w
    else
      wordWrapLoop hw ws testLine

def wordWrapLine (hw : String → Nat → ℚ) (para : String) : List String :=
  if para.trim.length = 0 then [""] else wordWrapLoop hw (splitCh spaceCh para) ""

/-- `Math.floor((792 - 100) / 16.5)` with `lineHeight = 11 * 1.5 = 16.5`:
`⌊692 / (33 / 2)⌋ = ⌊1384 / 33⌋`, computed by natural division. -/
def wordLinesPerPage : Nat := (692 * 2) / 33

/-- The page loop of `wordToPdfBytes` (fuel as in `textPagesGo`; `idx` is
`lineIndex`, whose being zero marks the first page).  Empty wrapped lines are
skipped by `drawText` but still advance `y`. -/
def wordPagesGo (hw : String → Nat → ℚ) (name : String) :
    Nat → Nat → List String → List Page
  | 0, _, _ => []
  | _, _, [] => []
  | fuel + 1, idx, l :: ls =>
    let rem := l :: ls
    let first := idx = 0
    let k := min (wordLinesPerPage - (if first then 3 else 0)) rem.length
    let y0 : ℚ := if first then 792 - 50 - (33 / 2) * 2 else 792 - 50
    let headerOps : List DrawOp :=
      if first then [DrawOp.text name 50 (792 - 50) 14] else []
    let bodyOps : List DrawOp :=
      (rem.take k).enum.filterMap fun p =>
        if p.2 = "" then none else some (DrawOp.text p.2 50 (y0 - (33 / 2) * p.1) 11)
    ⟨612, 792, headerOps ++ bodyOps⟩ :: wordPagesGo hw name fuel (idx + k) (rem.drop k)

/-- `wordToPdfBytes` up to serialization.  When no wrapped line exists the
`while` loop still runs once (its condition also tests `getPageCount() === 0`),
producing a single page bearing only the file-name heading; the trailing
`(empty document)` fallback is therefore unreachable but kept. -/
def wordToPdfPages (hw : String → Nat → ℚ) (name text : String) : List Page :=
  let wrapped := ((splitCh newlineCh text).map (wordWrapLine hw)).flatten
  let pages :=
    if wrapped.isEmpty then
      [⟨612, 792, [DrawOp.text name 50 (792 - 50) 14]⟩]
    else
      wordPagesGo hw name wrapped.length 0 wrapped
  if pages.length = 0 then
    [⟨612, 792, [DrawOp.text (name ++ " (empty document)") 50 (792 - 50) 12]⟩]
  else
    pages

/-! ### Table of contents -/

/-- One rendered TOC row: the (truncated) display name, the displayed page
number, the 0-based TOC page the row sits on and its `y` coordinate. -/
structure TocEntry where
  displayName : String
  pageNo : Nat
  tocPage : Nat
  y : Nat
deriving DecidableEq, Repr

/-- The name-truncation `while` loop of `createTableOfContents`
(`maxNameWidth = 612 - 50 * 2 - 100 = 412`); each pass drops the last four
characters and appends an ellipsis, so the length shrinks and fuel equal to
the initial length suffices. -/
def truncGo (hw : String → Nat → ℚ) : Nat → String → String
  | 0, s => s
  | fuel + 1, s =>
    if hw s 11 > 412 ∧ s.length > 10 then
      truncGo hw fuel (s.take (s.length - 4) ++ "...")
    else
      s

def truncName (hw : String → Nat → ℚ) (s : String) : String :=
  truncGo hw s.length s

/-- The entry loop of `createTableOfContents`: starting below the title and
rule (`y = 792 - 50 - 40 - 20 = 682`), a new page begins when
`y < margin + 50 = 100`, each row advancing `y` by the TOC line height 18.
Returns the rows and the final 0-based page index. -/
def tocGo (hw : String → Nat → ℚ) : List DocumentInfo → Nat → Nat → List TocEntry × Nat
  | [], pg, _ => ([], pg)
  | d :: ds, pg, y =>
    let pg2 := if y < 100 then pg + 1 else pg
    let y2 := if y < 100 then 792 - 50 else y
    let rest := tocGo hw ds pg2 (y2 - 18)
    (⟨truncName hw d.name, d.startPage, pg2, y2⟩ :: rest.1, rest.2)

def tocEntries (hw : String → Nat → ℚ) (infos : List DocumentInfo) : List TocEntry :=
  (tocGo hw infos 0 682).1

/-- The page count of the generated TOC document. -/
def tocPageCount (hw : String → Nat → ℚ) (infos : List DocumentInfo) : Nat :=
  (tocGo hw infos 0 682).2 + 1

/-- The operations drawn for one TOC row: the display name, the right-aligned
`Page N` text, and the dotted rule between them (one dot every 6 units while
`dotX < dotsEnd`). -/
def tocEntryOps (hw : String → Nat → ℚ) (e : TocEntry) : List DrawOp :=
  let pageText := "Page " ++ toString e.pageNo
  let ptW := hw pageText 11
  let dotsStart : ℚ := 50 + hw e.displayName 11 + 10
  let dotsEnd : ℚ := 612 - 50 - ptW - 10
  let nDots : Nat := if dotsStart < dotsEnd then (⌈(dotsEnd - dotsStart) / 6⌉).toNat else 0
  [DrawOp.text e.displayName 50 e.y 11,
   DrawOp.text pageText (612 - 50 - ptW) e.y 11]
    ++ (List.range nDots).map fun k => DrawOp.text "." (dotsStart + 6 * k) e.y 11

/-- `createTableOfContents` up to serialization: the rendered TOC pages (the
first carries the title and separator rule). -/
def tocPdfPages (hw : String → Nat → ℚ) (infos : List DocumentInfo) : List Page :=
  let r := tocGo hw infos 0 682
  (List.range (r.2 + 1)).map fun pg =>
    let headOps : List DrawOp :=
      if pg = 0 then
        [DrawOp.text "Table of Contents" 50 (792 - 50) 24,
         DrawOp.line 50 (792 - 50 - 40) (612 - 50) (792 - 50 - 40)]
      else []
    ⟨612, 792, headOps ++ ((r.1.filter fun e => e.tocPage = pg).map (tocEntryOps hw)).flatten⟩

/-! ### Decorator (`applyAdvancedOptions`) -/

def pageNumberText : PageNumberFormat → Nat → Nat → String
  | .pageXofY, pageNum, totalPages => "Page " ++ toString pageNum ++ " of " ++ toString totalPages
  | .xSlashY, pageNum, totalPages => toString pageNum ++ " / " ++ toString totalPages
  | .xOnly, pageNum, _ => toString pageNum
  | .dashXdash, pageNum, _ => "- " ++ toString pageNum ++ " -"

/-- Decoration of the page with 0-based index `i` out of `totalPages`. -/
def decoratePage (hw : String → Nat → ℚ) (opts : MergeOptions)
    (totalPages i : Nat) (p : Page) : Page :=
  let pageNum := i + 1
  let numOps : List DrawOp :=
    if opts.addPageNumbers then
      let t := pageNumberText opts.pageNumberFormat pageNum totalPages
      let tw := hw t 10
      let pos : ℚ × ℚ :=
        match opts.pageNumberPosition with
        | .bottomCenter => ((p.width - tw) / 2, 30)
        | .bottomRight => (p.width - tw - 40, 30)
        | .bottomLeft => (40, 30)
        | .topCenter => ((p.width - tw) / 2, p.height - 30)
        | .topRight => (p.width - tw - 40, p.height - 30)
        | .topLeft => (40, p.height - 30)
      [DrawOp.text t pos.1 pos.2 10]
    else []
  let headerOps : List DrawOp :=
    if opts.addHeader ∧ opts.headerText ≠ "" then
      [DrawOp.text opts.headerText ((p.width - hw opts.headerText 10) / 2) (p.height - 25) 10]
    else []
  let footerOps : List DrawOp :=
    if opts.addFooter ∧ opts.footerText ≠ "" then
      [DrawOp.text opts.footerText ((p.width - hw opts.footerText 10) / 2) 15 10]
    else []
  let wmOps : List DrawOp :=
    if opts.addWatermark ∧ opts.watermarkText ≠ "" then
      [DrawOp.text opts.watermarkText (p.width / 2 - 150) (p.height / 2) 60]
    else []
  { p with ops := p.ops ++ numOps ++ headerOps ++ footerOps ++ wmOps }

/-- The finished document handed to `save`: decorated pages plus metadata
(each metadata field set only when non-empty, otherwise left untouched). -/
structure FinalDoc where
  pages : List Page
  title : Option String := none
  author : Option String := none
  subject : Option String := none
deriving DecidableEq, Repr

/-- `applyAdvancedOptions` (its `documentInfos` argument is unused in the
source and kept here for fidelity). -/
def applyAdvancedOptions (hw : String → Nat → ℚ) (opts : MergeOptions)
    (_infos : List DocumentInfo) (pages : List Page) : FinalDoc :=
  { pages := pages.enum.map fun p => decoratePage hw opts pages.length p.1 p.2
    title := if opts.pdfTitle ≠ "" then some opts.pdfTitle else none
    author := if opts.pdfAuthor ≠ "" then some opts.pdfAuthor else none
    subject := if opts.pdfSubject ≠ "" then some opts.pdfSubject else none }

/-! ### Compositor -/

/-- The loop body's adapter dispatch inside the `try` block of `mergeFiles`.
For a pdf item the pages are loaded and copied verbatim
(`recompressPdfImages` only copies pages unchanged). -/
def runAdapter (hw : String → Nat → ℚ) (item : FileItem) (s : QualitySettings) :
    Except String (List Page) :=
  match item.ftype with
  | .pdf => item.pdfData
  | .image => imageToPdfPages item s
  | .text => item.textData.map fun t => textToPdfPages item.name t
  | .word => item.wordText.map fun t => wordToPdfPages hw item.name t
  | .unsupported => .ok []

/-- The pages an item contributes to the output document: none when it is
unsupported or its adapter fails. -/
def itemPages (hw : String → Nat → ℚ) (s : QualitySettings) (item : FileItem) : List Page :=
  if item.ftype = .unsupported then []
  else
    match runAdapter hw item s with
    | .ok ps => ps
    | .error _ => []

/-- The error entry recorded for an item, if any: `` `${item.name}: ${msg}` ``. -/
def errOf (hw : String → Nat → ℚ) (s : QualitySettings) (item : FileItem) : Option String :=
  if item.ftype = .unsupported then none
  else
    match runAdapter hw item s with
    | .ok _ => none
    | .error e => some (item.name ++ ": " ++ e)

/-- Whether the item counts as a success. -/
def adapterOk (hw : String → Nat → ℚ) (s : QualitySettings) (item : FileItem) : Bool :=
  if item.ftype = .unsupported then false
  else
    match runAdapter hw item s with
    | .ok _ => true
    | .error _ => false

def processingEvent (processed total : Nat) (name : String) : MergeProgress :=
  { current := processed
    total := total
    phase := .processing
    message := "Processing " ++ name ++ "..."
    currentFile := some name }

/-- The mutable state of the processing loop of `mergeFiles`. -/
structure CompState where
  processed : Nat := 0
  total : Nat
  pages : List Page := []
  success : Nat := 0
  skipped : Nat := 0
  errors : List String := []
  infos : List DocumentInfo := []
  events : List MergeProgress := []

/-- One iteration of the loop over `files` in `mergeFiles`: emit the
processing event, record `startPage` as the current page count plus one,
dispatch to the adapter, and on `pagesAdded > 0` push a `DocumentInfo`. -/
def stepItem (hw : String → Nat → ℚ) (s : QualitySettings)
    (st : CompState) (item : FileItem) : CompState :=
  let processed := st.processed + 1
  let st := { st with
    processed := processed
    events := st.events ++ [processingEvent processed st.total item.name] }
  if item.ftype = .unsupported then
    { st with skipped := st.skipped + 1 }
  else
    match runAdapter hw item s with
    | .ok ps =>
      let startPage := st.pages.length + 1
      { st with
        pages := st.pages ++ ps
        success := st.success + 1
        infos := st.infos ++ (if ps.length > 0 then [⟨item.name, startPage, ps.length⟩] else []) }
    | .error e =>
      { st with errors := st.errors ++ [item.name ++ ": " ++ e] }

/-- The whole processing loop of `mergeFiles`. -/
def compRun (hw : String → Nat → ℚ) (s : QualitySettings) (files : List FileItem) : CompState :=
  files.foldl (stepItem hw s) { total := files.length }

/-! ### mergeFiles -/

structure Blob where
  bytes : List Nat
deriving DecidableEq, Repr

def Blob.size (b : Blob) : Nat := b.bytes.length

def fmtLabel : OutputFormat → String
  | .pdfCompressed => "compressed"
  | .pdfHighQuality => "high quality"
  | .pdf => "standard"

def qualityLabel : OutputFormat → String
  | .pdfCompressed => " (compressed)"
  | .pdfHighQuality => " (high quality)"
  | .pdf => ""

/-- Model of `(size / (1024 * 1024)).toFixed(2)`. -/
def mbString (size : Nat) : String :=
  let c := roundDiv (size * 100) (1024 * 1024)
  toString (c / 100) ++ "." ++ (if c % 100 < 10 then "0" else "") ++ toString (c % 100)

def preparingEvent (fmt : OutputFormat) (total : Nat) : MergeProgress :=
  { current := 0
    total := total
    phase := .preparing
    message := "Preparing to merge (" ++ fmtLabel fmt ++ ")..."
    currentFile := none }

def finalizingEvent (total : Nat) : MergeProgress :=
  { current := total
    total := total
    phase := .finalizing
    message := "Creating table of contents..."
    currentFile := none }

def compressingEvent (fmt : OutputFormat) (total : Nat) : MergeProgress :=
  { current := total
    total := total
    phase := .compressing
    message := if fmt = OutputFormat.pdfCompressed
      then "Compressing final document..." else "Finalizing document..."
    currentFile := none }

def completeEvent (fmt : OutputFormat) (total pages size : Nat) : MergeProgress :=
  { current := total
    total := total
    phase := .complete
    message := "Done! " ++ toString pages ++ " pages, " ++ mbString size ++ " MB" ++ qualityLabel fmt
    currentFile := none }

def mergeErrMsg : String := "No pages could be merged. Please check your files and try again."

/-- The document handed to `save` by a completing `mergeFiles` call: on the
TOC path (TOC enabled and at least one `DocumentInfo`) the first-pass TOC page
count `T` is added to every `startPage`, the TOC is rebuilt and prepended to
the content pages; the decorator runs over the combined sequence. -/
def mergeFinalDoc (hw : String → Nat → ℚ) (files : List FileItem)
    (fmt : OutputFormat) (opts : MergeOptions) : FinalDoc :=
  let comp := compRun hw (QUALITY_PRESETS fmt) files
  if opts.addTableOfContents ∧ comp.infos ≠ [] then
    let T := tocPageCount hw comp.infos
    let infos2 := comp.infos.map fun d => { d with startPage := d.startPage + T }
    applyAdvancedOptions hw opts infos2 (tocPdfPages hw infos2 ++ comp.pages)
  else
    applyAdvancedOptions hw opts comp.infos comp.pages

/-- `mergeFiles`: returns the emitted progress events in order, paired with
either the single fatal error (thrown when zero pages were appended) or the
returned `Blob`. -/
def mergeFiles (hw : String → Nat → ℚ) (sv : FinalDoc → Bool → List Nat)
    (files : List FileItem) (fmt : OutputFormat) (opts : MergeOptions) :
    List MergeProgress × Except String Blob :=
  let total := files.length
  let settings := QUALITY_PRESETS fmt
  let comp := compRun hw settings files
  let evs := preparingEvent fmt total :: comp.events
  if comp.pages.length = 0 then
    (evs, .error mergeErrMsg)
  else
    let doc := mergeFinalDoc hw files fmt opts
    let blob : Blob := ⟨sv doc settings.useObjectStreams⟩
    let tocPath := opts.addTableOfContents ∧ comp.infos ≠ []
    let evs2 := evs
      ++ (if tocPath then [finalizingEvent total] else [])
      ++ [compressingEvent fmt total, completeEvent fmt total doc.pages.length blob.size]
    (evs2, .ok blob)

/-! ### Compositor characterization -/

/-- The processing events emitted by the loop, one per item in order, with
strictly increasing `current` counters starting after `n`. -/
def eventsFrom (total : Nat) : List FileItem → Nat → List MergeProgress
  | [], _ => []
  | it :: its, n => processingEvent (n + 1) total it.name :: eventsFrom total its (n + 1)

/-- The `DocumentInfo` entries produced by the loop when the output document
already holds `n` pages: one entry per item that contributes at least one
page, in input order. -/
def infosFrom (hw : String → Nat → ℚ) (s : QualitySettings) :
    List FileItem → Nat → List DocumentInfo
  | [], _ => []
  | it :: its, n =>
    let ps := itemPages hw s it
    (if ps.length > 0 then [⟨it.name, n + 1, ps.length⟩] else [])
      ++ infosFrom hw s its (n + ps.length)

def sumPages (ds : List DocumentInfo) : Nat := (ds.map DocumentInfo.pageCount).sum

/-- `startPage` values are contiguous starting at `k`: each entry starts where
the previous one ended, every entry contributes at least one page. -/
def chainFrom : Nat → List DocumentInfo → Prop
  | _, [] => True
  | k, d :: ds => d.startPage = k ∧ 0 < d.pageCount ∧ chainFrom (k + d.pageCount) ds

/-! ### Concrete fixtures used by witnesses and counterexamples -/

def hw0 : String → Nat → ℚ := fun _ _ => 450

def sv0 : FinalDoc → Bool → List Nat := fun d _ => [d.pages.length]

def pgA1 : Page := ⟨612, 792, [DrawOp.text "A1" 50 700 10]⟩
def pgA2 : Page := ⟨612, 792, [DrawOp.text "A2" 50 700 10]⟩
def pgB1 : Page := ⟨612, 792, [DrawOp.text "B1" 50 700 10]⟩
def pgB2 : Page := ⟨612, 792, [DrawOp.text "B2" 50 700 10]⟩
def pgB3 : Page := ⟨612, 792, [DrawOp.text "B3" 50 700 10]⟩
def pgB4 : Page := ⟨612, 792, [DrawOp.text "B4" 50 700 10]⟩
def pgB5 : Page := ⟨612, 792, [DrawOp.text "B5" 50 700 10]⟩

def exA : FileItem := { name := "A.pdf", ftype := .pdf, pdfData := .ok [pgA1, pgA2] }
def exB : FileItem := { name := "B.pdf", ftype := .pdf, pdfData := .ok [pgB1, pgB2, pgB3, pgB4, pgB5] }
def okPdf : FileItem := { name := "ok.pdf", ftype := .pdf, pdfData := .ok [pgA1] }
def badPdf : FileItem := { name := "bad.pdf", ftype := .pdf, pdfData := .error "broken" }
def zeroPdf : FileItem := { name := "zero.pdf", ftype := .pdf, pdfData := .ok [] }
def unsupItem : FileItem := { name := "u.bin", ftype := .unsupported }

def tocOpts : MergeOptions := { defaultMergeOptions with addTableOfContents := true }

/-! ### Theorems -/


theorem compRun_foldl (hw : String → Nat → ℚ) (s : QualitySettings)
    (files : List FileItem) (st : CompState) :
    files.foldl (stepItem hw s) st =
      { processed := st.processed + files.length
        total := st.total
        pages := st.pages ++ (files.map (itemPages hw s)).flatten
        success := st.success + files.countP (adapterOk hw s)
        skipped := st.skipped + files.countP (fun it => decide (it.ftype = FileType.unsupported))
        errors := st.errors ++ files.filterMap (errOf hw s)
        infos := st.infos ++ infosFrom hw s files st.pages.length
        events := st.events ++ eventsFrom st.total files st.processed } := by
  induction files generalizing st with
  | nil => simp [infosFrom, eventsFrom]
  | cons it its ih =>
    rw [List.foldl_cons, ih]
    by_cases hft : it.ftype = FileType.unsupported
    · simp [stepItem, hft, itemPages, errOf, adapterOk, infosFrom, eventsFrom,
        List.countP_cons, Nat.add_assoc, Nat.add_comm 1]
    · rcases hra : runAdapter hw it s with e | ps
      · simp [stepItem, hft, hra, itemPages, errOf, adapterOk, infosFrom, eventsFrom,
          List.countP_cons, Nat.add_assoc, Nat.add_comm 1]
      · simp [stepItem, hft, hra, itemPages, errOf, adapterOk, infosFrom, eventsFrom,
          List.countP_cons, Nat.add_assoc, Nat.add_comm 1]

theorem compRun_eq (hw : String → Nat → ℚ) (s : QualitySettings) (files : List FileItem) :
    compRun hw s files =
      { processed := files.length
        total := files.length
        pages := (files.map (itemPages hw s)).flatten
        success := files.countP (adapterOk hw s)
        skipped := files.countP (fun it => decide (it.ftype = FileType.unsupported))
        errors := files.filterMap (errOf hw s)
        infos := infosFrom hw s files 0
        events := eventsFrom files.length files 0 } := by
  unfold compRun
  rw [compRun_foldl]
  simp

/-! ### DocumentInfo invariants -/

theorem chainFrom_infosFrom (hw : String → Nat → ℚ) (s : QualitySettings)
    (files : List FileItem) (n : Nat) : chainFrom (n + 1) (infosFrom hw s files n) := by
  induction files generalizing n with
  | nil => trivial
  | cons it its ih =>
    by_cases h : (itemPages hw s it).length > 0
    · have h2 := ih (n + (itemPages hw s it).length)
      rw [Nat.add_right_comm] at h2
      simpa [infosFrom, h, chainFrom] using h2
    · have h0 : (itemPages hw s it).length = 0 := by omega
      simpa [infosFrom, h, h0] using ih n

theorem sumPages_infosFrom (hw : String → Nat → ℚ) (s : QualitySettings)
    (files : List FileItem) (n : Nat) :
    sumPages (infosFrom hw s files n) = ((files.map (itemPages hw s)).flatten).length := by
  induction files generalizing n with
  | nil => simp [infosFrom, sumPages]
  | cons it its ih =>
    by_cases h : (itemPages hw s it).length > 0
    · simp [infosFrom, h, sumPages] at ih ⊢
      rw [ih]
    · have h0 : (itemPages hw s it).length = 0 := by omega
      simp [infosFrom, h, sumPages] at ih ⊢
      rw [ih]
      omega

theorem isEmpty_false_of_len {α : Type} (l : List α) (h : 0 < l.length) :
    l.isEmpty = false := by
  cases l
  · simp at h
  · rfl

theorem isEmpty_true_of_len {α : Type} (l : List α) (h : l.length = 0) :
    l.isEmpty = true := by
  cases l
  · rfl
  · simp at h

theorem infosFrom_names (hw : String → Nat → ℚ) (s : QualitySettings)
    (files : List FileItem) (n : Nat) :
    (infosFrom hw s files n).map DocumentInfo.name
      = (files.filter fun it => !(itemPages hw s it).isEmpty).map FileItem.name := by
  induction files generalizing n with
  | nil => simp [infosFrom]
  | cons it its ih =>
    by_cases h : (itemPages hw s it).length > 0
    · have he := isEmpty_false_of_len _ h
      simp [infosFrom, h, he, ih]
    · have h0 : (itemPages hw s it).length = 0 := by omega
      have he := isEmpty_true_of_len _ h0
      simp [infosFrom, h, he, ih]

/-! ### Progress event characterization -/

theorem eventsFrom_map (total : Nat) (files : List FileItem) (n : Nat) :
    (eventsFrom total files n).map (fun e => (e.phase, e.current))
      = (List.range files.length).map fun i => (Phase.processing, n + i + 1) := by
  induction files generalizing n with
  | nil => simp [eventsFrom]
  | cons it its ih =>
    rw [eventsFrom, List.map_cons, ih, List.length_cons, List.range_succ_eq_map,
      List.map_cons, List.map_map]
    simp only [List.cons.injEq]
    constructor
    · simp [processingEvent]
    · apply List.map_congr_left
      intro i hi
      simp only [Function.comp]
      have harith : n + 1 + i + 1 = n + i.succ + 1 := by omega
      rw [harith]

theorem eventsFrom_phases (total : Nat) (files : List FileItem) (n : Nat) :
    ∀ e ∈ eventsFrom total files n, e.phase = Phase.processing := by
  induction files generalizing n with
  | nil => simp [eventsFrom]
  | cons it its ih =>
    intro e he
    rcases he with _ | ⟨_, hmem⟩
    · rfl
    · exact ih (n + 1) e (by assumption)

/-! ### TOC lemmas -/

theorem tocGo_snd_congr (hw hw2 : String → Nat → ℚ)
    (infos infos2 : List DocumentInfo) (h : infos.length = infos2.length) :
    ∀ pg y, (tocGo hw infos pg y).2 = (tocGo hw2 infos2 pg y).2 := by
  induction infos generalizing infos2 with
  | nil => cases infos2 with
    | nil => intro pg y; rfl
    | cons d ds => simp at h
  | cons d ds ih =>
    cases infos2 with
    | nil => simp at h
    | cons d2 ds2 =>
      intro pg y
      simp only [List.length_cons, Nat.add_right_cancel_iff] at h
      simp only [tocGo]
      exact ih ds2 h _ _

theorem tocGo_pageNo (hw : String → Nat → ℚ) (infos : List DocumentInfo) :
    ∀ pg y, ((tocGo hw infos pg y).1.map TocEntry.pageNo) = infos.map DocumentInfo.startPage := by
  induction infos with
  | nil => intro pg y; rfl
  | cons d ds ih =>
    intro pg y
    simp only [tocGo, List.map_cons]
    exact congrArg (List.cons d.startPage) (ih _ _)

theorem tocPageCount_shift (hw : String → Nat → ℚ) (T2 : Nat) (infos : List DocumentInfo) :
    tocPageCount hw (infos.map fun d => { d with startPage := d.startPage + T2 })
      = tocPageCount hw infos := by
  unfold tocPageCount
  rw [tocGo_snd_congr hw hw _ infos (by simp)]

theorem tocEntries_pageNo (hw : String → Nat → ℚ) (infos : List DocumentInfo) :
    (tocEntries hw infos).map TocEntry.pageNo = infos.map DocumentInfo.startPage :=
  tocGo_pageNo hw infos 0 682

theorem tocPdfPages_length (hw : String → Nat → ℚ) (infos : List DocumentInfo) :
    (tocPdfPages hw infos).length = tocPageCount hw infos := by
  simp [tocPdfPages, tocPageCount]

theorem applyAdvancedOptions_length (hw : String → Nat → ℚ) (opts : MergeOptions)
    (infos : List DocumentInfo) (pages : List Page) :
    (applyAdvancedOptions hw opts infos pages).pages.length = pages.length := by
  simp [applyAdvancedOptions]

/-! ### roundDiv lemmas (for the image-profile monotonicity claim) -/

theorem roundDiv_le_of_lt (w maxD m : Nat) (h1 : maxD < m) : roundDiv (w * maxD) m ≤ w := by
  have h2 : w * maxD ≤ w * m := Nat.mul_le_mul_left w (Nat.le_of_lt h1)
  have hm : 0 < m := Nat.lt_of_le_of_lt (Nat.zero_le _) h1
  have h3 : 2 * (w * maxD) + m < (w + 1) * (2 * m) := by
    have hexp : (w + 1) * (2 * m) = 2 * (w * m) + 2 * m := by ring
    rw [hexp]
    exact Nat.lt_of_le_of_lt (Nat.add_le_add_right (Nat.mul_le_mul_left 2 h2) m)
      (Nat.add_lt_add_left (by omega) (2 * (w * m)))
  have h5 : (2 * (w * maxD) + m) / (2 * m) < w + 1 :=
    (Nat.div_lt_iff_lt_mul (by omega)).mpr h3
  unfold roundDiv
  exact Nat.lt_succ_iff.mp h5

theorem roundDiv_mono (a b m : Nat) (h : a ≤ b) : roundDiv a m ≤ roundDiv b m :=
  Nat.div_le_div_right (by omega)

/-- C7: re-encoding a raster image of pixel size `w × h` under the compact
profile never yields a larger page dimension than under the standard or
high-fidelity profile: a profile with downscaling enabled and a dimension
beyond its `maxImageDimension` rounds `w * maxImageDimension / max w h` (and
likewise for `h`), any other profile keeps the native size — in particular the
high-fidelity profile always keeps `(w, h)`. -/
theorem compressDims_profile_monotone (w h : Nat) :
    (compressDims w h (QUALITY_PRESETS OutputFormat.pdfCompressed)).1
        ≤ (compressDims w h (QUALITY_PRESETS OutputFormat.pdf)).1 ∧
    (compressDims w h (QUALITY_PRESETS OutputFormat.pdfCompressed)).2
        ≤ (compressDims w h (QUALITY_PRESETS OutputFormat.pdf)).2 ∧
    compressDims w h (QUALITY_PRESETS OutputFormat.pdfHighQuality) = (w, h) ∧
    (compressDims w h (QUALITY_PRESETS OutputFormat.pdfCompressed)).1 ≤ w ∧
    (compressDims w h (QUALITY_PRESETS OutputFormat.pdfCompressed)).2 ≤ h := by
  have hhq : compressDims w h (QUALITY_PRESETS OutputFormat.pdfHighQuality) = (w, h) := by
    simp [compressDims, QUALITY_PRESETS]
  by_cases hc : w > 1200 ∨ h > 1200
  · have hmx : 1200 < max w h := by omega
    have hle1 : roundDiv (w * 1200) (max w h) ≤ w := roundDiv_le_of_lt w 1200 _ hmx
    have hle2 : roundDiv (h * 1200) (max w h) ≤ h := by
      have := roundDiv_le_of_lt h 1200 (max h w) (by omega)
      rwa [Nat.max_comm h w] at this
    by_cases hs : w > 2400 ∨ h > 2400
    · have hm1 : roundDiv (w * 1200) (max w h) ≤ roundDiv (w * 2400) (max w h) :=
        roundDiv_mono _ _ _ (Nat.mul_le_mul_left w (by omega))
      have hm2 : roundDiv (h * 1200) (max w h) ≤ roundDiv (h * 2400) (max w h) :=
        roundDiv_mono _ _ _ (Nat.mul_le_mul_left h (by omega))
      simp [compressDims, QUALITY_PRESETS, hc, hs, hhq, hle1, hle2, hm1, hm2]
    · simp [compressDims, QUALITY_PRESETS, hc, hs, hhq, hle1, hle2]
  · have hs : ¬(w > 2400 ∨ h > 2400) := by omega
    simp [compressDims, QUALITY_PRESETS, hc, hs, hhq]

/-! ### mergeFiles-level helper lemmas -/

/-- A completing invocation returns exactly the serialized final document. -/
theorem mergeFiles_snd_of_ne_nil (hw : String → Nat → ℚ) (sv : FinalDoc → Bool → List Nat)
    (files : List FileItem) (fmt : OutputFormat) (opts : MergeOptions)
    (hne : (compRun hw (QUALITY_PRESETS fmt) files).pages ≠ []) :
    (mergeFiles hw sv files fmt opts).2
      = Except.ok ⟨sv (mergeFinalDoc hw files fmt opts) (QUALITY_PRESETS fmt).useObjectStreams⟩ := by
  have hlen : (compRun hw (QUALITY_PRESETS fmt) files).pages.length ≠ 0 := by
    simpa [List.length_eq_zero] using hne
  simp [mergeFiles, hlen]

theorem mergeFiles_error_iff (hw : String → Nat → ℚ) (sv : FinalDoc → Bool → List Nat)
    (files : List FileItem) (fmt : OutputFormat) (opts : MergeOptions) :
    (mergeFiles hw sv files fmt opts).2 = Except.error mergeErrMsg
      ↔ (compRun hw (QUALITY_PRESETS fmt) files).pages = [] := by
  by_cases hlen : (compRun hw (QUALITY_PRESETS fmt) files).pages.length = 0
  · simp [mergeFiles, hlen, List.length_eq_zero.mp hlen]
  · have : (compRun hw (QUALITY_PRESETS fmt) files).pages ≠ [] := by
      simpa [Ne, ← List.length_eq_zero] using hlen
    simp [mergeFiles, hlen, this]

theorem mergeFiles_fst_of_nil (hw : String → Nat → ℚ) (sv : FinalDoc → Bool → List Nat)
    (files : List FileItem) (fmt : OutputFormat) (opts : MergeOptions)
    (hz : (compRun hw (QUALITY_PRESETS fmt) files).pages = []) :
    (mergeFiles hw sv files fmt opts).1
      = preparingEvent fmt files.length :: (compRun hw (QUALITY_PRESETS fmt) files).events := by
  have hlen : (compRun hw (QUALITY_PRESETS fmt) files).pages.length = 0 := by
    simp [hz]
  simp [mergeFiles, hlen]

/-! ### Claim theorems: C1, C2 -/

/-- C1 (amended): a completing merge invocation returns only the final byte
blob — the serialized final document; the succeeded/skipped/errored counts and
the per-file error list are accumulated internally (`compRun`) and are not
part of the returned value. -/
theorem mergeFiles_returns_blob_only (hw : String → Nat → ℚ) (sv : FinalDoc → Bool → List Nat)
    (files : List FileItem) (fmt : OutputFormat) (opts : MergeOptions)
    (hne : (compRun hw (QUALITY_PRESETS fmt) files).pages ≠ []) :
    (mergeFiles hw sv files fmt opts).2
      = Except.ok ⟨sv (mergeFinalDoc hw files fmt opts) (QUALITY_PRESETS fmt).useObjectStreams⟩ :=
  mergeFiles_snd_of_ne_nil hw sv files fmt opts hne

/-- C1 witness: the theorem applied at a concrete completing run. -/
theorem mergeFiles_returns_blob_only_witness :
    (mergeFiles hw0 sv0 [okPdf] OutputFormat.pdf defaultMergeOptions).2
      = Except.ok ⟨sv0 (mergeFinalDoc hw0 [okPdf] OutputFormat.pdf defaultMergeOptions)
          (QUALITY_PRESETS OutputFormat.pdf).useObjectStreams⟩ :=
  mergeFiles_returns_blob_only hw0 sv0 [okPdf] OutputFormat.pdf defaultMergeOptions (by decide)

/-- C1 counterexample: two invocations whose per-file error lists differ
return identical values, so the returned value of `mergeFiles` cannot carry
the error count or the error messages (nor the skip/success counts). -/
theorem mergeFiles_outcome_cex :
    (mergeFiles hw0 sv0 [okPdf] OutputFormat.pdf defaultMergeOptions).2
      = (mergeFiles hw0 sv0 [okPdf, badPdf] OutputFormat.pdf defaultMergeOptions).2 ∧
    (compRun hw0 (QUALITY_PRESETS OutputFormat.pdf) [okPdf]).errors = [] ∧
    (compRun hw0 (QUALITY_PRESETS OutputFormat.pdf) [okPdf, badPdf]).errors
      = ["bad.pdf: broken"] := by
  refine ⟨by decide, by decide, by decide⟩

/-- C2 (amended): the `mergeErrMsg` error is thrown if and only if, after the
loop over every input, zero pages were appended; it is the sole error a merge
invocation can throw; when it is thrown the emitted trace is the preparing
event followed only by the per-item processing events — so no compressing,
finalizing or complete event is ever emitted before the throw, but for a list
of only-unsupported files one processing event per item is emitted first. -/
theorem emptyResult_sole_fatal (hw : String → Nat → ℚ) (sv : FinalDoc → Bool → List Nat)
    (files : List FileItem) (fmt : OutputFormat) (opts : MergeOptions) :
    ((mergeFiles hw sv files fmt opts).2 = Except.error mergeErrMsg
        ↔ (compRun hw (QUALITY_PRESETS fmt) files).pages = []) ∧
    (∀ e, (mergeFiles hw sv files fmt opts).2 = Except.error e → e = mergeErrMsg) ∧
    ((compRun hw (QUALITY_PRESETS fmt) files).pages = [] →
      (mergeFiles hw sv files fmt opts).1
          = preparingEvent fmt files.length :: (compRun hw (QUALITY_PRESETS fmt) files).events ∧
      ∀ ev ∈ (mergeFiles hw sv files fmt opts).1,
        ev.phase = Phase.preparing ∨ ev.phase = Phase.processing) := by
  refine ⟨mergeFiles_error_iff hw sv files fmt opts, ?_, ?_⟩
  · intro e he
    by_cases hz : (compRun hw (QUALITY_PRESETS fmt) files).pages = []
    · have := (mergeFiles_error_iff hw sv files fmt opts).mpr hz
      rw [this] at he
      exact (Except.error.injEq _ _ ▸ congrArg id he : _) ▸ rfl
    · rw [mergeFiles_snd_of_ne_nil hw sv files fmt opts hz] at he
      exact absurd he (by simp)
  · intro hz
    refine ⟨mergeFiles_fst_of_nil hw sv files fmt opts hz, ?_⟩
    intro ev hev
    rw [mergeFiles_fst_of_nil hw sv files fmt opts hz] at hev
    rcases List.mem_cons.mp hev with h1 | h2
    · subst h1
      left
      rfl
    · right
      rw [compRun_eq] at h2
      exact eventsFrom_phases files.length files 0 ev h2

/-- C2 witness: the theorem applied at the empty input list. -/
theorem emptyResult_sole_fatal_witness :
    (mergeFiles hw0 sv0 ([] : List FileItem) OutputFormat.pdf defaultMergeOptions).2
      = Except.error mergeErrMsg :=
  (emptyResult_sole_fatal hw0 sv0 [] OutputFormat.pdf defaultMergeOptions).1.mpr (by decide)

/-- C2 counterexample: a list holding one unsupported file.  The fatal error
is thrown, but an event of the `processing` phase — a phase beyond
`preparing` — was emitted before it, contradicting the claim that the error is
raised before any phase beyond `preparing` is entered. -/
theorem emptyResult_trace_cex :
    (mergeFiles hw0 sv0 [unsupItem] OutputFormat.pdf defaultMergeOptions).2
      = Except.error mergeErrMsg ∧
    (mergeFiles hw0 sv0 [unsupItem] OutputFormat.pdf defaultMergeOptions).1.map MergeProgress.phase
      = [Phase.preparing, Phase.processing] := by
  refine ⟨by decide, by decide⟩

/-! ### Claim theorems: C3 -/

/-- C3 (amended): for a completing invocation the trace is exactly: one
`preparing` event with counter 0, one `processing` event per input item with
strictly increasing counters 1..N, then — only when the TOC path is taken
(TOC enabled and at least one DocumentInfo) — a single `finalizing` event,
then one `compressing` and one `complete` event at counter N.  In particular
`finalizing` is absent whenever the TOC path is not taken, and when present it
precedes `compressing`. -/
theorem progress_trace_shape (hw : String → Nat → ℚ) (sv : FinalDoc → Bool → List Nat)
    (files : List FileItem) (fmt : OutputFormat) (opts : MergeOptions)
    (hne : (compRun hw (QUALITY_PRESETS fmt) files).pages ≠ []) :
    (mergeFiles hw sv files fmt opts).1.map (fun e => (e.phase, e.current))
      = ((Phase.preparing, 0)
          :: (List.range files.length).map fun i => (Phase.processing, i + 1))
          ++ (if opts.addTableOfContents ∧ (compRun hw (QUALITY_PRESETS fmt) files).infos ≠ []
              then [(Phase.finalizing, files.length)] else [])
          ++ [(Phase.compressing, files.length), (Phase.complete, files.length)] := by
  have hlen : (compRun hw (QUALITY_PRESETS fmt) files).pages.length ≠ 0 := by
    simpa [List.length_eq_zero] using hne
  have hev : (compRun hw (QUALITY_PRESETS fmt) files).events.map (fun e => (e.phase, e.current))
      = (List.range files.length).map fun i => (Phase.processing, i + 1) := by
    rw [compRun_eq]
    rw [eventsFrom_map]
    apply List.map_congr_left
    intro i _
    simp
  by_cases htoc : opts.addTableOfContents ∧ (compRun hw (QUALITY_PRESETS fmt) files).infos ≠ []
  · rcases htoc with ⟨ht1, ht2⟩
    simp only [mergeFiles, hlen, if_neg hlen]
    simp [preparingEvent, finalizingEvent, compressingEvent, completeEvent, hev, ht1, ht2]
  · simp only [mergeFiles, hlen, if_neg hlen, if_neg htoc, htoc, if_false]
    simp [preparingEvent, compressingEvent, completeEvent, hev, htoc]

/-- C3 witness: the theorem applied at a concrete completing run. -/
theorem progress_trace_shape_witness :
    (mergeFiles hw0 sv0 [okPdf] OutputFormat.pdf defaultMergeOptions).1.map
        (fun e => (e.phase, e.current))
      = ((Phase.preparing, 0)
          :: (List.range (1 : Nat)).map fun i => (Phase.processing, i + 1))
          ++ (if defaultMergeOptions.addTableOfContents
                ∧ (compRun hw0 (QUALITY_PRESETS OutputFormat.pdf) [okPdf]).infos ≠ []
              then [(Phase.finalizing, 1)] else [])
          ++ [(Phase.compressing, 1), (Phase.complete, 1)] :=
  progress_trace_shape hw0 sv0 [okPdf] OutputFormat.pdf defaultMergeOptions (by decide)

/-- C3 counterexample: a completing non-TOC run.  The merge completes, yet the
`finalizing` phase occurs zero times — not exactly once as claimed — and the
emitted order is preparing, processing, compressing, complete. -/
theorem progress_trace_cex :
    (mergeFiles hw0 sv0 [okPdf] OutputFormat.pdf defaultMergeOptions).1.map MergeProgress.phase
      = [Phase.preparing, Phase.processing, Phase.compressing, Phase.complete] ∧
    (mergeFiles hw0 sv0 [okPdf] OutputFormat.pdf defaultMergeOptions).1.countP
        (fun e => decide (e.phase = Phase.finalizing)) = 0 ∧
    (mergeFiles hw0 sv0 [okPdf] OutputFormat.pdf defaultMergeOptions).2
      ≠ Except.error mergeErrMsg := by
  refine ⟨by decide, by decide, by decide⟩

/-! ### Claim theorems: C4 -/

/-- C4: when exactly one item of a list of at least two fails in its adapter
and every other item processes successfully producing its pages, the merge
completes and returns a blob; the output's content pages are exactly the
concatenation, in input order, of every successful item's pages (the failing
item contributes none, and the loop continued past it); and the per-file
error list holds exactly one entry, the failing file's name with the
underlying message. -/
theorem single_failure_tolerated (hw : String → Nat → ℚ) (sv : FinalDoc → Bool → List Nat)
    (fmt : OutputFormat) (opts : MergeOptions)
    (A B : List FileItem) (bad : FileItem) (msg : String)
    (hA : ∀ it ∈ A, it.ftype ≠ FileType.unsupported ∧
      ∃ ps, runAdapter hw it (QUALITY_PRESETS fmt) = Except.ok ps ∧ ps ≠ [])
    (hB : ∀ it ∈ B, it.ftype ≠ FileType.unsupported ∧
      ∃ ps, runAdapter hw it (QUALITY_PRESETS fmt) = Except.ok ps ∧ ps ≠ [])
    (hbadTy : bad.ftype ≠ FileType.unsupported)
    (hbad : runAdapter hw bad (QUALITY_PRESETS fmt) = Except.error msg)
    (hne : A ++ B ≠ []) :
    (compRun hw (QUALITY_PRESETS fmt) (A ++ bad :: B)).pages
        = (A.map (itemPages hw (QUALITY_PRESETS fmt))).flatten
            ++ (B.map (itemPages hw (QUALITY_PRESETS fmt))).flatten ∧
    (compRun hw (QUALITY_PRESETS fmt) (A ++ bad :: B)).errors = [bad.name ++ ": " ++ msg] ∧
    (mergeFiles hw sv (A ++ bad :: B) fmt opts).2
        = Except.ok ⟨sv (mergeFinalDoc hw (A ++ bad :: B) fmt opts)
            (QUALITY_PRESETS fmt).useObjectStreams⟩ := by
  have hbadPages : itemPages hw (QUALITY_PRESETS fmt) bad = [] := by
    simp [itemPages, hbadTy, hbad]
  have hpages : (compRun hw (QUALITY_PRESETS fmt) (A ++ bad :: B)).pages
      = (A.map (itemPages hw (QUALITY_PRESETS fmt))).flatten
          ++ (B.map (itemPages hw (QUALITY_PRESETS fmt))).flatten := by
    rw [compRun_eq]
    simp [hbadPages]
  have herrs : (compRun hw (QUALITY_PRESETS fmt) (A ++ bad :: B)).errors
      = [bad.name ++ ": " ++ msg] := by
    rw [compRun_eq]
    have heA : A.filterMap (errOf hw (QUALITY_PRESETS fmt)) = [] := by
      rw [List.filterMap_eq_nil_iff]
      intro a ha
      obtain ⟨hty, ps, hok, -⟩ := hA a ha
      simp [errOf, hty, hok]
    have heB : B.filterMap (errOf hw (QUALITY_PRESETS fmt)) = [] := by
      rw [List.filterMap_eq_nil_iff]
      intro b hb
      obtain ⟨hty, ps, hok, -⟩ := hB b hb
      simp [errOf, hty, hok]
    simp [heA, heB, errOf, hbadTy, hbad]
  refine ⟨hpages, herrs, ?_⟩
  apply mergeFiles_snd_of_ne_nil
  rw [hpages]
  rcases A with _ | ⟨a, A2⟩
  · rcases B with _ | ⟨b, B2⟩
    · simp at hne
    · obtain ⟨-, ps, hok, hps⟩ := hB b (List.mem_cons_self b B2)
      have hbp : itemPages hw (QUALITY_PRESETS fmt) b = ps := by
        obtain ⟨hty, -⟩ := hB b (List.mem_cons_self b B2)
        simp [itemPages, hty, hok]
      intro hcon
      rcases List.append_eq_nil.mp hcon with ⟨-, h2⟩
      rw [List.flatten_eq_nil_iff] at h2
      exact hps (hbp ▸ h2 (itemPages hw (QUALITY_PRESETS fmt) b)
        (by simp))
  · obtain ⟨-, ps, hok, hps⟩ := hA a (List.mem_cons_self a A2)
    have hap : itemPages hw (QUALITY_PRESETS fmt) a = ps := by
      obtain ⟨hty, -⟩ := hA a (List.mem_cons_self a A2)
      simp [itemPages, hty, hok]
    intro hcon
    rcases List.append_eq_nil.mp hcon with ⟨h1, -⟩
    rw [List.flatten_eq_nil_iff] at h1
    exact hps (hap ▸ h1 (itemPages hw (QUALITY_PRESETS fmt) a)
      (by simp))

/-- C4 witness: the theorem applied to one good pdf followed by one corrupt
pdf. -/
theorem single_failure_tolerated_witness :
    (compRun hw0 (QUALITY_PRESETS OutputFormat.pdf) ([okPdf] ++ badPdf :: [])).errors
      = ["bad.pdf: broken"] :=
  (single_failure_tolerated hw0 sv0 OutputFormat.pdf defaultMergeOptions
    [okPdf] [] badPdf "broken"
    (by
      intro it hit
      rw [List.mem_singleton] at hit
      subst hit
      exact ⟨by decide, [pgA1], rfl, by decide⟩)
    (by intro it hit; simp at hit)
    (by decide) rfl (by simp)).2.1

/-! ### Claim theorems: C5, C6 -/

/-- C5 (amended): for every merge invocation the `DocumentInfo` list has
exactly one entry per input whose processing contributed at least one page, in
the same relative order as the input list; `startPage` values are strictly
increasing and contiguous — each entry starts where the previous one ended,
the first at page 1 before the TOC offset; the `pageCount` values sum to the
content page total; and on the TOC path the final document's page total is the
TOC page count plus that sum. -/
theorem docInfo_invariants (hw : String → Nat → ℚ) (fmt : OutputFormat)
    (opts : MergeOptions) (files : List FileItem) :
    chainFrom 1 (compRun hw (QUALITY_PRESETS fmt) files).infos ∧
    sumPages (compRun hw (QUALITY_PRESETS fmt) files).infos
        = (compRun hw (QUALITY_PRESETS fmt) files).pages.length ∧
    (compRun hw (QUALITY_PRESETS fmt) files).infos.map DocumentInfo.name
        = (files.filter fun it => !(itemPages hw (QUALITY_PRESETS fmt) it).isEmpty).map
            FileItem.name ∧
    (opts.addTableOfContents = true →
      (compRun hw (QUALITY_PRESETS fmt) files).infos ≠ [] →
      (mergeFinalDoc hw files fmt opts).pages.length
        = tocPageCount hw (compRun hw (QUALITY_PRESETS fmt) files).infos
            + (compRun hw (QUALITY_PRESETS fmt) files).pages.length) := by
  refine ⟨?_, ?_, ?_, ?_⟩
  · rw [compRun_eq]
    simpa using chainFrom_infosFrom hw (QUALITY_PRESETS fmt) files 0
  · rw [compRun_eq]
    simpa using sumPages_infosFrom hw (QUALITY_PRESETS fmt) files 0
  · rw [compRun_eq]
    exact infosFrom_names hw (QUALITY_PRESETS fmt) files 0
  · intro ht hinfos
    unfold mergeFinalDoc
    rw [if_pos ⟨ht, hinfos⟩]
    rw [applyAdvancedOptions_length, List.length_append, tocPdfPages_length,
      tocPageCount_shift]

/-- C5 witness: the theorem's TOC-path conjunct applied at a concrete run with
two pdf inputs and the TOC enabled. -/
theorem docInfo_invariants_witness :
    (mergeFinalDoc hw0 [exA, exB] OutputFormat.pdf tocOpts).pages.length
      = tocPageCount hw0 (compRun hw0 (QUALITY_PRESETS OutputFormat.pdf) [exA, exB]).infos
        + (compRun hw0 (QUALITY_PRESETS OutputFormat.pdf) [exA, exB]).pages.length :=
  (docInfo_invariants hw0 OutputFormat.pdf tocOpts [exA, exB]).2.2.2 rfl (by decide)

/-- C5 counterexample: a pdf input that loads successfully with zero pages is
counted as a success but pushes no `DocumentInfo` entry, so the DocumentInfo
list does not have one entry per successfully processed input. -/
theorem docInfo_success_cex :
    (compRun hw0 (QUALITY_PRESETS OutputFormat.pdf) [zeroPdf, okPdf]).success = 2 ∧
    (compRun hw0 (QUALITY_PRESETS OutputFormat.pdf) [zeroPdf, okPdf]).infos.length = 1 ∧
    (mergeFiles hw0 sv0 [zeroPdf, okPdf] OutputFormat.pdf defaultMergeOptions).2
      ≠ Except.error mergeErrMsg := by
  refine ⟨by decide, by decide, by decide⟩

/-- C6: the TOC page count depends only on the entry count, so rebuilding the
TOC after adding any offset (in particular its own page count `T`) to every
`startPage` yields the same page count; every rebuilt entry displays exactly
its `DocumentInfo.startPage`; and on the concrete
`merge([pageDoc(2 pages), pageDoc(5 pages)], toc: true)` run, `T = 1`, the TOC
lists file A at page `1 + T` and file B at page `1 + T + 2`, and those
1-based positions in the final assembled document hold precisely the first
pages contributed by A and by B. -/
theorem toc_fixed_point :
    (∀ (hw : String → Nat → ℚ) (T2 : Nat) (infos : List DocumentInfo),
        tocPageCount hw (infos.map fun d => { d with startPage := d.startPage + T2 })
          = tocPageCount hw infos) ∧
    (∀ (hw : String → Nat → ℚ) (infos : List DocumentInfo),
        (tocEntries hw infos).map TocEntry.pageNo = infos.map DocumentInfo.startPage) ∧
    (tocPageCount hw0 (compRun hw0 (QUALITY_PRESETS OutputFormat.pdf) [exA, exB]).infos = 1 ∧
      (tocEntries hw0 ((compRun hw0 (QUALITY_PRESETS OutputFormat.pdf) [exA, exB]).infos.map
          fun d => { d with startPage := d.startPage + 1 })).map TocEntry.pageNo
        = [1 + 1, 1 + 1 + 2] ∧
      (mergeFinalDoc hw0 [exA, exB] OutputFormat.pdf tocOpts).pages[1 + 1 - 1]? = some pgA1 ∧
      (mergeFinalDoc hw0 [exA, exB] OutputFormat.pdf tocOpts).pages[1 + 1 + 2 - 1]? = some pgB1) := by
  refine ⟨tocPageCount_shift, tocEntries_pageNo, by decide, by decide, by decide, by decide⟩

/-! ### Claim theorems: C8 -/

theorem wrapLoop_invariant (W : List String) :
    ∀ (ws : List String) (cur : String), (∀ w ∈ ws, w ∈ W) →
      (courierWidth10 cur ≤ textMaxWidth ∨ cur ∈ W) →
      ∀ l ∈ wrapLoop ws cur, courierWidth10 l ≤ textMaxWidth ∨ l ∈ W := by
  intro ws
  induction ws with
  | nil =>
    intro cur _ hcur l hl
    rw [wrapLoop] at hl
    by_cases hc : cur = ""
    · rw [if_pos hc] at hl
      simp at hl
    · rw [if_neg hc] at hl
      rw [List.mem_singleton] at hl
      subst hl
      exact hcur
  | cons w ws ih =>
    intro cur hws hcur l hl
    rw [wrapLoop] at hl
    have hwsW : ∀ x ∈ ws, x ∈ W := fun x hx => hws x (List.mem_cons_of_mem w hx)
    have hwW : w ∈ W := hws w (List.mem_cons_self w ws)
    by_cases hcond :
        courierWidth10 (if cur = "" then w else cur ++ " " ++ w) > textMaxWidth ∧ cur ≠ ""
    · rw [if_pos hcond] at hl
      rcases List.mem_cons.mp hl with h1 | h2
      · subst h1
        exact hcur
      · exact ih w hwsW (Or.inr hwW) l h2
    · rw [if_neg hcond] at hl
      refine ih _ hwsW ?_ l hl
      by_cases hc0 : cur = ""
      · rw [if_pos hc0]
        exact Or.inr hwW
      · rw [if_neg hc0]
        left
        rcases Nat.lt_or_ge textMaxWidth (courierWidth10 (cur ++ " " ++ w)) with hgt | hle
        · exact absurd ⟨by rw [if_neg hc0]; exact hgt, hc0⟩ hcond
        · exact hle

theorem wrapLine_invariant (line : String) :
    ∀ l ∈ wrapLine line, courierWidth10 l ≤ textMaxWidth ∨ l ∈ splitCh spaceCh line := by
  intro l hl
  rw [wrapLine] at hl
  by_cases hz : line.length = 0
  · rw [if_pos hz] at hl
    rw [List.mem_singleton] at hl
    subst hl
    exact Or.inl (by decide)
  · rw [if_neg hz] at hl
    exact wrapLoop_invariant (splitCh spaceCh line) (splitCh spaceCh line) ""
      (fun w hw => hw) (Or.inl (by decide)) l hl

/-- C8 (amended): every line produced by the text adapter's word wrap either
has measured width (Courier at the fixed size 10) at most the usable page
width `612 - 2 * 50`, or is verbatim one of the space-separated words of some
logical input line — a single unbreakable word, which may exceed the usable
width. -/
theorem wrap_width_bounded (text : String) :
    ∀ l ∈ wrappedLines text, courierWidth10 l ≤ textMaxWidth ∨
      ∃ line ∈ splitCh newlineCh text, l ∈ splitCh spaceCh line := by
  intro l hl
  rw [wrappedLines, List.mem_flatten] at hl
  obtain ⟨g, hg, hlg⟩ := hl
  rw [List.mem_map] at hg
  obtain ⟨line, hline, rfl⟩ := hg
  rcases wrapLine_invariant line l hlg with h1 | h2
  · exact Or.inl h1
  · exact Or.inr ⟨line, hline, h2⟩

/-- C8 witness: the theorem applied at a short two-word text whose single
wrapped line fits the usable width. -/
theorem wrap_width_bounded_witness :
    courierWidth10 "hello world" ≤ textMaxWidth ∨
      ∃ line ∈ splitCh newlineCh "hello world", "hello world" ∈ splitCh spaceCh line :=
  wrap_width_bounded "hello world" "hello world" (by decide)

/-- C8 counterexample: a single 86-character word is emitted as one wrapped
line whose measured width `6 * 86 = 516` exceeds the usable width `512`. -/
theorem wrap_width_cex :
    wrappedLines (String.mk (List.replicate 86 aChar))
        = [String.mk (List.replicate 86 aChar)] ∧
    courierWidth10 (String.mk (List.replicate 86 aChar)) > textMaxWidth := by
  refine ⟨by decide, by decide⟩

/-! ### Claim theorems: C9, C10 -/

theorem textPages_cons_ne_nil (name l : String) (ls : List String) :
    textPages name (l :: ls) ≠ [] := by
  simp [textPages, textPagesGo]

/-- C9 (amended): pagination always yields at least one page; the empty input
yields exactly one page, but its caption is `File: <name>` with the empty body
line — the `(empty)` marker does not appear, because splitting the empty text
on newlines yields one (empty) logical line; the `(empty)` caption page is
produced instead when every logical line is whitespace (e.g. the single-space
input), which wraps to no lines at all. -/
theorem text_pagination (name text : String) :
    1 ≤ (textToPdfPages name text).length ∧
    textToPdfPages name "" =
      [⟨612, 792, [DrawOp.text ("File: " ++ name) 50 ((742 : Nat) : ℚ) 12,
        DrawOp.text "" 50 ((714 : Nat) : ℚ) 10]⟩] ∧
    textToPdfPages name " " =
      [⟨612, 792, [DrawOp.text ("File: " ++ name ++ " (empty)") 50 ((742 : Nat) : ℚ) 12]⟩] := by
  refine ⟨?_, ?_, ?_⟩
  · rcases hwl : wrappedLines text with _ | ⟨l, ls⟩
    · simp [textToPdfPages, hwl, textPages, textPagesGo]
    · have hne := textPages_cons_ne_nil name l ls
      have hlen : (textPages name (l :: ls)).length ≠ 0 := by
        simpa [List.length_eq_zero] using hne
      simp [textToPdfPages, hwl, hlen]
      omega
  · have h0 : wrappedLines "" = [""] := by decide
    simp [textToPdfPages, h0, textPages, textPagesGo, maxLinesPerPage]
  · have h1 : wrappedLines " " = [] := by decide
    simp [textToPdfPages, h1, textPages, textPagesGo]

/-- C9 counterexample: for the empty input the produced single page's caption
is `File: doc.txt` followed by an empty body line — it does not contain the
`(empty)` marker the claim requires. -/
theorem text_empty_caption_cex :
    textToPdfPages "doc.txt" "" =
      [⟨612, 792, [DrawOp.text "File: doc.txt" 50 ((742 : Nat) : ℚ) 12,
        DrawOp.text "" 50 ((714 : Nat) : ℚ) 10]⟩] := by
  decide

/-- C10: `getPdfPageCount` is a total function — it resolves to the loaded
document's page count, and to 0 (rather than rejecting) whenever the bytes
cannot be loaded as a page-document. -/
theorem getPdfPageCount_never_throws (f : FileItem) :
    (getPdfPageCount f = match f.pdfData with
      | Except.ok pdf => pdf.length
      | Except.error _ => 0) ∧
    ∀ e, f.pdfData = Except.error e → getPdfPageCount f = 0 := by
  refine ⟨rfl, ?_⟩
  intro e he
  simp [getPdfPageCount, he]

/-- C10 witness: the theorem applied at a concrete unloadable input. -/
theorem getPdfPageCount_never_throws_witness : getPdfPageCount badPdf = 0 :=
  (getPdfPageCount_never_throws badPdf).2 "broken" rfl

end PdfMerger
